import Mathlib

/-!
Verification of the legal-dataset-repository generation scripts.

This file gives a shallow embedding of the pure/decidable parts of
`scripts/utils.py`, `scripts/evaluate_dataset.py`, `scripts/config.py`,
`scripts/generate_qa_dataset.py` and `scripts/generate_classifications.py`,
and proves (or refutes) the specification claims about them.

Modelling conventions:
- Python strings are `List Char`; Python ints are `Int` (arbitrary precision,
  so no wraparound modelling is needed).
- The `while` loop of `split_text_into_chunks` is embedded with an explicit
  fuel parameter: `none` means the fuel was exhausted before the loop
  finished, so a result of `none` for every fuel value means the loop never
  terminates.
- `json.loads` output is modelled by the inductive `JValue`; a dataset line
  is either `PLine.badJSON` (the parse raised `json.JSONDecodeError`) or
  `PLine.parsed v`.  Python truthiness and the `!= 0` comparison used by the
  validator are embedded by `pyFalsy` and `pyNeZero`.
- File-system effects are modelled by outcome values: the validator returns
  an `EvalOutcome`, and the generation `main` returns a `MainOutcome`
  recording whether the output file was opened and how many chunks were
  processed.
-/

namespace LegalDatasets

/-- Python slicing `text[start:stop]` with implicit step 1: negative bounds
count from the end of the string, and both bounds are clamped into
`[0, len(text)]`. -/
def pySlice (text : List Char) (start stop : Int) : List Char :=
  let L : Int := text.length
  let s : Int := if start < 0 then max (L + start) 0 else min start L
  let e : Int := if stop < 0 then max (L + stop) 0 else min stop L
  (text.drop s.toNat).take (e.toNat - s.toNat)

/-- The `while start_index < len(text)` loop of
`utils.split_text_into_chunks`, with an explicit fuel bound on the number of
iterations.  Each iteration appends `text[start_index : start_index +
max_chunk_size]` and advances `start_index` by `max_chunk_size - overlap`,
exactly as in the source.  `none` means the fuel ran out before the loop
condition became false. -/
def chunkLoopAux : Nat → List Char → Int → Int → Int → List (List Char) →
    Option (List (List Char))
  | 0, _, _, _, _, _ => none
  | fuel + 1, text, max_chunk_size, overlap, start_index, chunks =>
    if start_index < (text.length : Int) then
      chunkLoopAux fuel text max_chunk_size overlap
        (start_index + (max_chunk_size - overlap))
        (chunks ++ [pySlice text start_index (start_index + max_chunk_size)])
    else some chunks

/-- `utils.split_text_into_chunks`: returns `[]` for empty input (the
`if not isinstance(text, str) or not text` guard, with absent/non-string
input modelled by the empty string), otherwise runs the chunking loop
starting at index 0 with an empty accumulator. -/
def split_text_into_chunks (text : List Char) (max_chunk_size overlap : Int)
    (fuel : Nat) : Option (List (List Char)) :=
  if text.isEmpty then some []
  else chunkLoopAux fuel text max_chunk_size overlap 0 []

/-- Spec-side definition of the chunk sequence, following the spec's words:
windows `[start, start+max_size)` advancing `start` by `step = max_size -
overlap` each step, until `start >= len(text)`.  Used to state what the
loop returns; only meaningful for `0 < step`. -/
def specWindows (text : List Char) (max_chunk_size step start : Nat) :
    List (List Char) :=
  if _h : 0 < step ∧ start < text.length then
    ((text.drop start).take max_chunk_size) ::
      specWindows text max_chunk_size step (start + step)
  else []
termination_by text.length - start
decreasing_by omega

/-- Spec-side definition for the round-trip claim: concatenate the chunks
with the first `overlap` characters removed from every chunk after the
first. -/
def rejoinOverlap (overlap : Nat) : List (List Char) → List Char
  | [] => []
  | c :: rest => c ++ (rest.map (List.drop overlap)).flatten

/-- Chunks `a` and `b` (in this order) overlap by exactly `o` characters:
there is a shared block of `o` characters that is a suffix of `a` and a
prefix of `b`. -/
def overlapExactly (o : Nat) (a b : List Char) : Prop :=
  o ≤ a.length ∧ o ≤ b.length ∧ b.take o = a.drop (a.length - o)

/-- The result of `json.loads` on one dataset line: JSON null, booleans,
numbers (ints and floats both compare with `== 0` numerically, so a single
rational constructor captures the validator-relevant behavior), strings,
arrays, and objects (Python dicts: association lists with string keys). -/
inductive JValue where
  | null : JValue
  | bool (b : Bool) : JValue
  | num (q : ℚ) : JValue
  | str (s : List Char) : JValue
  | arr (elems : List JValue) : JValue
  | obj (fields : List (List Char × JValue)) : JValue

/-- Python truthiness test `not value` on a JSON value: `None`, `False`,
numeric zero, and empty strings/lists/dicts are falsy. -/
def pyFalsy : JValue → Bool
  | .null => true
  | .bool b => !b
  | .num q => q == 0
  | .str s => s.isEmpty
  | .arr elems => elems.isEmpty
  | .obj fields => fields.isEmpty

/-- The Python comparison `value != 0` on a JSON value.  Values of
non-numeric types are unequal to `0`; `bool` is an `int` subclass in Python,
so `False != 0` is `False` and `True != 0` is `True`. -/
def pyNeZero : JValue → Bool
  | .bool b => b
  | .num q => q != 0
  | _ => true

/-- The validator's empty-value test `not value and value != 0` for one
field value. -/
def countsEmpty (v : JValue) : Bool :=
  pyFalsy v && pyNeZero v

/-- `data.keys()` of a parsed JSON object, in insertion order. -/
def objKeys (fields : List (List Char × JValue)) : List (List Char) :=
  fields.map Prod.fst

/-- Python set equality `set(ks) == set(exp)` on key lists: mutual
containment. -/
def keySetEq (ks exp : List (List Char)) : Bool :=
  ks.all (fun k => exp.contains k) && exp.all (fun k => ks.contains k)

/-- The number of empty-value increments contributed by one matching-keys
line: the loop `for key, value in data.items(): if not value and value != 0:
empty_value_count += 1`. -/
def emptyFieldCount (fields : List (List Char × JValue)) : Nat :=
  fields.countP (fun kv => countsEmpty kv.2)

/-- One line of a dataset file as seen by `evaluate_jsonl_dataset`: either
`json.loads` raised `json.JSONDecodeError`, or it produced a value. -/
inductive PLine where
  | badJSON : PLine
  | parsed (v : JValue) : PLine

/-- The three accumulation counters of `evaluate_jsonl_dataset`. -/
structure EvalStats where
  invalid_json_count : Nat
  missing_key_count : Nat
  empty_value_count : Nat
deriving DecidableEq

/-- The body of the `for i, line in enumerate(lines)` loop of
`evaluate_jsonl_dataset` for one line.  `expected` is the `expected_keys`
variable (`none` = Python `None`).  Returns the updated
`(expected_keys, counters)` state, or `none` when the line raises an
uncaught exception: a JSON-parseable non-object line reaches
`set(data.keys())`, which raises `AttributeError` (not caught by the
`except json.JSONDecodeError` handler). -/
def processLine (expected : Option (List (List Char))) (st : EvalStats) :
    PLine → Option (Option (List (List Char)) × EvalStats)
  | .badJSON =>
      some (expected, ⟨st.invalid_json_count + 1, st.missing_key_count,
        st.empty_value_count⟩)
  | .parsed v =>
    match v with
    | .obj fields =>
        let ks := objKeys fields
        let exp := expected.getD ks
        if keySetEq ks exp then
          some (some exp, ⟨st.invalid_json_count, st.missing_key_count,
            st.empty_value_count + emptyFieldCount fields⟩)
        else
          some (some exp, ⟨st.invalid_json_count, st.missing_key_count + 1,
            st.empty_value_count⟩)
    | _ => none

/-- The whole per-line loop of `evaluate_jsonl_dataset`, threading the
`expected_keys` and counter state through the lines. -/
def evalLines : List PLine → Option (List (List Char)) → EvalStats →
    Option (Option (List (List Char)) × EvalStats)
  | [], expected, st => some (expected, st)
  | l :: ls, expected, st =>
    match processLine expected st l with
    | none => none
    | some (e2, st2) => evalLines ls e2 st2

/-- The final quality verdict of `evaluate_jsonl_dataset`:
`invalid_json_count == 0 and missing_key_count == 0 and
empty_value_count == 0`. -/
def datasetPassed (st : EvalStats) : Bool :=
  st.invalid_json_count == 0 && st.missing_key_count == 0 &&
    st.empty_value_count == 0

/-- Observable outcome of `evaluate_jsonl_dataset` on a list of lines. -/
inductive EvalOutcome where
  | emptyFile : EvalOutcome
  | crashed : EvalOutcome
  | report (expected : Option (List (List Char))) (st : EvalStats)
      (passed : Bool) : EvalOutcome
deriving DecidableEq

/-- `evaluate_jsonl_dataset` on the lines of an (existing) dataset file:
empty files return early with only a warning; otherwise the per-line loop
runs and the summary (counters plus pass/fail verdict) is reported, unless
an uncaught exception escapes the loop. -/
def evaluate_jsonl_dataset (lines : List PLine) : EvalOutcome :=
  if lines.isEmpty then .emptyFile
  else
    match evalLines lines none ⟨0, 0, 0⟩ with
    | none => .crashed
    | some (e, st) => .report e st (datasetPassed st)

/-- Spec-side definition: the key set of the first successfully parsed
(object) line of the file, the dataset's "expected keys". -/
def firstParsedKeys : List PLine → Option (List (List Char))
  | [] => none
  | .badJSON :: ls => firstParsedKeys ls
  | .parsed (.obj fields) :: _ => some (objKeys fields)
  | .parsed _ :: ls => firstParsedKeys ls

/-- A line whose `json.loads` raised `json.JSONDecodeError`. -/
def lineIsBad : PLine → Bool
  | .badJSON => true
  | _ => false

/-- A line that is either unparseable or parses to a JSON object (the lines
on which the validator loop body does not raise). -/
def lineIsObjOrBad : PLine → Bool
  | .badJSON => true
  | .parsed (.obj _) => true
  | .parsed _ => false

/-- `config.CLASSIFICATION_LABELS`: the per-domain label lists, verbatim
from `scripts/config.py`. -/
def CLASSIFICATION_LABELS : List (String × List String) :=
  [("legal",
    ["Governing Law", "Confidentiality", "Limitation of Liability",
     "Termination", "Indemnification", "Force Majeure", "Miscellaneous"]),
   ("finance",
    ["Revenue Growth", "Profit Margin Analysis", "Risk Assessment",
     "Forward-Looking Statement", "Shareholder Equity",
     "Debt and Liabilities"]),
   ("healthcare",
    ["Patient History", "Diagnosis", "Prescription", "Symptom Description",
     "Treatment Plan", "Test Results"]),
   ("default",
    ["General Information", "Key Highlight", "Action Item"])]

/-- `CLASSIFICATION_LABELS.get(domain, CLASSIFICATION_LABELS["default"])`
from `generate_classification_from_text` (the `"default"` key is present in
the configured mapping, so the inner `getD []` never fires). -/
def labelsForDomain (domain : String) : List String :=
  (CLASSIFICATION_LABELS.lookup domain).getD
    ((CLASSIFICATION_LABELS.lookup "default").getD [])

/-- The structured-output schema built by
`generate_classification_from_text`: both fields required, and the
`classification` property constrained by an `enum` of the domain labels. -/
structure ClassificationSchema where
  required_fields : List String
  classification_enum : List String
deriving DecidableEq

/-- The schema-construction part of `generate_classification_from_text`
(the part before the API call): fetch the domain labels and put them into
the schema's enumeration. -/
def generate_classification_schema (domain : String) : ClassificationSchema :=
  ⟨["text_snippet", "classification"], labelsForDomain domain⟩

/-- `str.rfind('/')` on a path: index of the last slash, `-1` if none. -/
def lastSlashIdx : List Char → Int
  | [] => -1
  | c :: rest =>
    let r := lastSlashIdx rest
    if r ≥ 0 then r + 1 else if c = '/' then 0 else -1

/-- `head.rstrip('/')`: remove trailing slashes. -/
def rstripSlashes (l : List Char) : List Char :=
  (l.reverse.dropWhile (fun c => c == '/')).reverse

/-- `os.path.dirname` (posixpath): `i = p.rfind('/') + 1; head = p[:i]`,
then strip trailing slashes unless `head` is empty or consists only of
slashes. -/
def os_path_dirname (p : List Char) : List Char :=
  let i := (lastSlashIdx p + 1).toNat
  let head := p.take i
  if head.isEmpty || head.all (fun c => c == '/') then head
  else rstripSlashes head

/-- The dataset-writer opening sequence shared by the generation scripts:
`os.makedirs(os.path.dirname(output_file), exist_ok=True)` followed by
`open(output_file, 'w')`.  On a writable file system, `os.makedirs(d,
exist_ok=True)` succeeds for every nonempty path `d` but raises
`FileNotFoundError` for the empty path `''`; `none` models that uncaught
exception, `some ()` models the successfully opened handle. -/
def open_dataset_writer (path : List Char) : Option Unit :=
  if (os_path_dirname path).isEmpty then none else some ()

/-- One generated question-answer record (`generate_qa_dataset`). -/
structure QAPair where
  question : List Char
  answer : List Char
  context_used : List Char

/-- `generate_qa_dataset.generate_qa_from_text`, with the external model
call abstracted by the oracle `api` (which already accounts for the
`except` handler mapping call failures to `[]`).  With no `GOOGLE_API_KEY`
in the environment the function logs `FATAL: ...` and returns `[]` — it
does not raise and does not abort the run. -/
def generate_qa_from_text (api_key : Option (List Char))
    (api : List Char → List QAPair) (chunk : List Char) : List QAPair :=
  match api_key with
  | none => []
  | some _ => api chunk

/-- Observable outcome of `generate_qa_dataset.main`. -/
inductive MainOutcome where
  | abortedNoSource : MainOutcome
  | abortedNoChunks : MainOutcome
  | crashedMakedirs : MainOutcome
  | fuelExhausted : MainOutcome
  | completed (chunksProcessed recordsWritten : Nat) : MainOutcome
deriving DecidableEq

/-- `generate_qa_dataset.main` after argument parsing: read the source text
(`none` = `read_text_file` failed, and the falsy check also aborts on empty
content), chunk it with the default parameters `(4000, 200)`, create the
output directory and open the output file in `'w'` mode, then run
`generate_qa_from_text` on every chunk, writing each returned pair as one
line.  `completed n k` means the output file was created/truncated, `n`
chunks were processed, and `k` records were written. -/
def qa_main (api_key : Option (List Char)) (api : List Char → List QAPair)
    (source_text : Option (List Char)) (output_file : List Char) :
    MainOutcome :=
  match source_text with
  | none => .abortedNoSource
  | some text =>
    if text.isEmpty then .abortedNoSource
    else
      match split_text_into_chunks text 4000 200 (text.length + 1) with
      | none => .fuelExhausted
      | some chunks =>
        if chunks.isEmpty then .abortedNoChunks
        else
          match open_dataset_writer output_file with
          | none => .crashedMakedirs
          | some _ =>
            .completed chunks.length
              ((chunks.map
                (fun c => (generate_qa_from_text api_key api c).length)).sum)

/-! Helper lemmas about the chunking loop. -/

/-- Unfolding lemma for the chunking loop at positive fuel. -/
theorem chunkLoopAux_succ (fuel : Nat) (text : List Char)
    (max_chunk_size overlap start_index : Int) (chunks : List (List Char)) :
    chunkLoopAux (fuel + 1) text max_chunk_size overlap start_index chunks =
      if start_index < (text.length : Int) then
        chunkLoopAux fuel text max_chunk_size overlap
          (start_index + (max_chunk_size - overlap))
          (chunks ++ [pySlice text start_index (start_index + max_chunk_size)])
      else some chunks := rfl

/-- When the overlap is at least the chunk size, the start index never
increases, so on nonempty text the loop condition stays true forever: no
amount of fuel makes the loop finish. -/
theorem chunkLoopAux_no_advance (text : List Char) (max_chunk_size overlap : Int)
    (hmo : max_chunk_size ≤ overlap) (hne : text ≠ []) :
    ∀ (fuel : Nat) (start_index : Int) (chunks : List (List Char)),
      start_index ≤ 0 →
      chunkLoopAux fuel text max_chunk_size overlap start_index chunks = none := by
  intro fuel
  induction fuel with
  | zero => intro start_index chunks _; rfl
  | succ f ih =>
    intro start_index chunks h
    have hL : (0 : Int) < (text.length : Int) := by
      have := List.length_pos.mpr hne
      exact_mod_cast this
    rw [chunkLoopAux_succ, if_pos (by omega)]
    exact ih _ _ (by omega)

/-! C2 -/

/-- C2: the claim says chunking with `overlap >= max_size` fails fast with a
configuration error.  The code has no such check: on any nonempty text the
sliding window never advances and the loop never terminates — for every
fuel value the loop is still running (`none`), and no configuration error
(indeed no result at all) is ever produced. -/
theorem chunking_overlap_ge_max_diverges (text : List Char)
    (max_chunk_size overlap : Int) (hmo : max_chunk_size ≤ overlap)
    (hne : text ≠ []) :
    ∀ fuel : Nat,
      split_text_into_chunks text max_chunk_size overlap fuel = none := by
  intro fuel
  unfold split_text_into_chunks
  rw [if_neg (by simp [List.isEmpty_iff, hne])]
  exact chunkLoopAux_no_advance text max_chunk_size overlap hmo hne fuel 0 []
    (le_refl 0)

/-- Witness for C2 at the concrete failing input `text="ab"`,
`max_size=1`, `overlap=1`. -/
theorem chunking_overlap_ge_max_diverges_witness :
    split_text_into_chunks ['a', 'b'] 1 1 5 = none :=
  chunking_overlap_ge_max_diverges ['a', 'b'] 1 1 (le_refl 1) (by decide) 5

/-! C10 -/

/-- C10: chunking an empty (or absent, modelled as empty) input text
returns an empty chunk list without any error, for every choice of
`max_chunk_size` and `overlap` (and any fuel). -/
theorem chunking_empty_input_returns_empty :
    ∀ (max_chunk_size overlap : Int) (fuel : Nat),
      split_text_into_chunks [] max_chunk_size overlap fuel = some [] :=
  fun _ _ _ => rfl

/-- Witness for C10 at `max_chunk_size = 4000`, `overlap = 200`. -/
theorem chunking_empty_input_returns_empty_witness :
    split_text_into_chunks [] 4000 200 7 = some [] :=
  chunking_empty_input_returns_empty 4000 200 7

/-- On natural-number bounds `[start, start+m)`, Python slicing is
`(text.drop start).take m`. -/
theorem pySlice_nat (text : List Char) (start m : Nat) :
    pySlice text (start : Int) ((start : Int) + (m : Int)) =
      (text.drop start).take m := by
  unfold pySlice
  dsimp only
  rw [if_neg (by omega), if_neg (by omega)]
  rw [show min ((start : Int) + (m : Int)) ((text.length : Int)) =
        ((min (start + m) text.length : Nat) : Int) by push_cast [Nat.cast_min]; ring_nf,
      show min ((start : Int)) ((text.length : Int)) =
        ((min start text.length : Nat) : Int) by push_cast [Nat.cast_min]; ring_nf]
  rw [Int.toNat_natCast, Int.toNat_natCast]
  by_cases hs : start ≤ text.length
  · rw [min_eq_left hs]
    rw [List.take_eq_take, List.length_drop]
    omega
  · rw [min_eq_right (by omega), min_eq_right (by omega)]
    rw [List.drop_length, List.drop_eq_nil_of_le (by omega)]
    simp

/-- Unfolding lemma for the spec-side window list. -/
theorem specWindows_unfold (text : List Char) (max_chunk_size step start : Nat) :
    specWindows text max_chunk_size step start =
      if 0 < step ∧ start < text.length then
        ((text.drop start).take max_chunk_size) ::
          specWindows text max_chunk_size step (start + step)
      else [] := by
  rw [specWindows]
  split <;> rfl

/-- With a positive step (`overlap < max_chunk_size`) and enough fuel, the
chunking loop terminates and returns the accumulator followed by the
spec-side windows from the current start index. -/
theorem chunkLoopAux_eq_specWindows (text : List Char) (m o : Nat)
    (ho : o < m) :
    ∀ (fuel start : Nat) (chunks : List (List Char)),
      text.length - start < fuel →
      chunkLoopAux fuel text (m : Int) (o : Int) (start : Int) chunks =
        some (chunks ++ specWindows text m (m - o) start) := by
  intro fuel
  induction fuel with
  | zero => intro start chunks h; omega
  | succ f ih =>
    intro start chunks h
    rw [chunkLoopAux_succ, specWindows_unfold]
    by_cases hlt : start < text.length
    · rw [if_pos (by exact_mod_cast hlt), if_pos ⟨by omega, hlt⟩]
      rw [show (start : Int) + ((m : Int) - (o : Int)) =
            ((start + (m - o) : Nat) : Int) by push_cast [ho.le]; ring]
      rw [pySlice_nat, ih (start + (m - o)) _ (by omega)]
      simp

    · rw [if_neg (by exact_mod_cast hlt), if_neg (by omega)]
      simp

/-- Every spec-side window has length at most `max_chunk_size`. -/
theorem specWindows_length_le (text : List Char) (m step : Nat) :
    ∀ (n start : Nat), text.length - start ≤ n →
      ∀ c ∈ specWindows text m step start, c.length ≤ m := by
  intro n
  induction n with
  | zero =>
    intro start h c hc
    rw [specWindows_unfold, if_neg (by omega)] at hc
    simp at hc
  | succ k ih =>
    intro start h c hc
    rw [specWindows_unfold] at hc
    by_cases hcond : 0 < step ∧ start < text.length
    · rw [if_pos hcond] at hc
      rcases List.mem_cons.mp hc with hc | hc
      · subst hc
        rw [List.length_take]
        omega
      · exact ih (start + step) (by omega) c hc
    · rw [if_neg hcond] at hc
      simp at hc

/-- Element description of the spec-side windows: the `i`-th window starts
at `start + step * i`. -/
theorem specWindows_getElem (text : List Char) (m step : Nat) :
    ∀ (i start : Nat), i < (specWindows text m step start).length →
      (specWindows text m step start)[i]? =
        some ((text.drop (start + step * i)).take m) := by
  intro i
  induction i with
  | zero =>
    intro start h
    rw [specWindows_unfold] at h ⊢
    by_cases hcond : 0 < step ∧ start < text.length
    · rw [if_pos hcond]
      simp
    · rw [if_neg hcond] at h
      simp at h
  | succ i ih =>
    intro start h
    rw [specWindows_unfold] at h ⊢
    by_cases hcond : 0 < step ∧ start < text.length
    · rw [if_pos hcond] at h ⊢
      rw [List.getElem?_cons_succ, ih (start + step) (by simpa using h)]
      rw [show start + step + step * i = start + step * (i + 1) by
        rw [Nat.mul_succ]; omega]
    · rw [if_neg hcond] at h
      simp at h

/-- The last spec-side window is a suffix of the text (its end offset is
`len(text)`): once the next start would be at or past the end, the final
window is `text[start:]`, whose take is the whole remaining tail because
`step ≤ max_chunk_size`. -/
theorem specWindows_getLast_suffix (text : List Char) (m step : Nat)
    (hsm : step ≤ m) :
    ∀ (n start : Nat), text.length - start ≤ n →
      0 < step → start < text.length →
      ∃ c, (specWindows text m step start).getLast? = some c ∧
        c <:+ text := by
  intro n
  induction n with
  | zero => intro start h hstep hlt; omega
  | succ k ih =>
    intro start h hstep hlt
    rw [specWindows_unfold, if_pos ⟨hstep, hlt⟩]
    by_cases hnext : start + step < text.length
    · obtain ⟨c, hc, hsuf⟩ := ih (start + step) (by omega) hstep hnext
      refine ⟨c, ?_, hsuf⟩
      rw [specWindows_unfold text m step (start + step),
        if_pos ⟨hstep, hnext⟩] at hc ⊢
      rw [List.getLast?_cons_cons]
      exact hc
    · rw [specWindows_unfold, if_neg (by omega)]
      refine ⟨(text.drop start).take m, rfl, ?_⟩
      rw [List.take_of_length_le (by rw [List.length_drop]; omega)]
      exact List.drop_suffix start text

/-- Concatenating the spec-side windows from any start, each with its first
`o` characters removed, yields `text[start+o:]`. -/
theorem specWindows_drop_flatten (text : List Char) (m o : Nat) (ho : o < m) :
    ∀ (n start : Nat), text.length - start ≤ n →
      ((specWindows text m (m - o) start).map (List.drop o)).flatten =
        text.drop (start + o) := by
  intro n
  induction n with
  | zero =>
    intro start h
    rw [specWindows_unfold, if_neg (by omega)]
    rw [List.drop_eq_nil_of_le (by omega)]
    simp
  | succ k ih =>
    intro start h
    rw [specWindows_unfold]
    by_cases hlt : start < text.length
    · rw [if_pos ⟨by omega, hlt⟩]
      simp only [List.map_cons, List.flatten_cons]
      rw [ih (start + (m - o)) (by omega)]
      rw [List.drop_take, List.drop_drop]
      have h2 : text.drop (start + (m - o) + o) =
          (text.drop (start + o)).drop (m - o) := by
        rw [List.drop_drop]
        congr 1
        omega
      rw [h2]
      exact List.take_append_drop (m - o) (text.drop (start + o))
    · rw [if_neg (by omega)]
      rw [List.drop_eq_nil_of_le (by omega)]
      simp

/-! C3 -/

/-- C3 counterexample: the claim says consecutive chunks overlap by exactly
`o` characters except possibly the final chunk.  For the 10-character text
below with `max_size=8`, `overlap=6` (so `0 <= o < m` holds), chunking
yields 5 chunks; the chunks at indices 2 and 3 are `"efghij"` and `"ghij"`,
and chunk 3 is not the final chunk (chunk 4 is), yet they share only 4
characters, not 6: the claimed overlap fails on a pair not covered by the
final-chunk exception. -/
theorem chunking_overlap_claim_counterexample :
    split_text_into_chunks ("abcdefghij".toList) 8 6 11 =
      some ["abcdefgh".toList, "cdefghij".toList, "efghij".toList,
        "ghij".toList, "ij".toList] ∧
    ¬ overlapExactly 6 ("efghij".toList) ("ghij".toList) := by
  refine ⟨by decide, fun h => absurd h.2.1 (by decide)⟩

/-- C3 (amended): for nonempty text and `0 <= o < m`, chunking terminates
(with fuel `len(text)+1`) and returns exactly the spec windows `[start,
start+m)` advancing by `m-o` until `start >= len(text)`; every chunk has
length at most `m`; a pair of consecutive chunks overlaps by exactly `o`
characters whenever the earlier chunk has full length `m` (the amendment:
the original "except possibly the final chunk" exception is too narrow —
every truncated chunk, which necessarily reaches the end of the text,
breaks the exact-`o` overlap with its successor, not only the final one);
the final chunk is a suffix of the text (its end offset is `len(text)`);
and for `len(text)=900`, `m=500`, `o=50` the result is exactly the two
chunks `[0,500)` and `[450,900)`. -/
theorem chunking_window_structure (text : List Char) (m o : Nat)
    (hne : text ≠ []) (ho : o < m) :
    ∃ cs,
      split_text_into_chunks text (m : Int) (o : Int) (text.length + 1) =
        some cs ∧
      cs = specWindows text m (m - o) 0 ∧
      (∀ c ∈ cs, c.length ≤ m) ∧
      (∀ i a b, cs[i]? = some a → cs[i + 1]? = some b → a.length = m →
        overlapExactly o a b) ∧
      (∃ c, cs.getLast? = some c ∧ c <:+ text) ∧
      (text.length = 900 → m = 500 → o = 50 →
        cs = [text.take 500, text.drop 450]) := by
  refine ⟨specWindows text m (m - o) 0, ?_, rfl, ?_, ?_, ?_, ?_⟩
  · unfold split_text_into_chunks
    rw [if_neg (by simp [List.isEmpty_iff, hne])]
    have h := chunkLoopAux_eq_specWindows text m o ho (text.length + 1) 0 []
      (by omega)
    simpa using h
  · exact specWindows_length_le text m (m - o) text.length 0 (by omega)
  · intro i a b ha hb hlen
    have hi : i < (specWindows text m (m - o) 0).length :=
      (List.getElem?_eq_some.mp ha).1
    have hi1 : i + 1 < (specWindows text m (m - o) 0).length :=
      (List.getElem?_eq_some.mp hb).1
    rw [specWindows_getElem text m (m - o) i 0 hi] at ha
    rw [specWindows_getElem text m (m - o) (i + 1) 0 hi1] at hb
    have hae : a = (text.drop (0 + (m - o) * i)).take m :=
      (Option.some.inj ha).symm
    have hbe : b = (text.drop (0 + (m - o) * (i + 1))).take m :=
      (Option.some.inj hb).symm
    have hsm : 0 + (m - o) * m = 0 + (m - o) * m := rfl
    set s : Nat := (m - o) * i with hs
    have hs1 : 0 + (m - o) * (i + 1) = s + (m - o) := by
      rw [Nat.mul_succ]; omega
    rw [Nat.zero_add] at hae
    rw [hs1] at hbe
    have hslen : s + m ≤ text.length := by
      rw [hae, List.length_take, List.length_drop] at hlen
      omega
    refine ⟨by omega, ?_, ?_⟩
    · rw [hbe, List.length_take, List.length_drop]
      omega
    · rw [hlen, hae, hbe, List.take_take, List.drop_take, List.drop_drop]
      rw [show min o m = o by omega, show m - (m - o) = o by omega]
  · exact specWindows_getLast_suffix text m (m - o) (by omega) text.length 0
      (by omega) (by omega) (List.length_pos.mpr hne)
  · intro h900 hm ho50
    subst hm
    subst ho50
    rw [specWindows_unfold, if_pos ⟨by omega, by omega⟩]
    rw [specWindows_unfold, if_pos ⟨by omega, by omega⟩]
    rw [specWindows_unfold, if_neg (by omega)]
    rw [List.drop_zero]
    rw [show (0 : Nat) + (500 - 50) = 450 by omega]
    congr 1
    rw [List.take_of_length_le (by rw [List.length_drop]; omega)]

/-- Witness for C3 (amended) at `text = 900` copies of `'a'`, `m = 500`,
`o = 50`. -/
theorem chunking_window_structure_witness :
    ∃ cs,
      split_text_into_chunks (List.replicate 900 'a') (500 : Int) (50 : Int)
        ((List.replicate 900 'a').length + 1) = some cs ∧
      cs = specWindows (List.replicate 900 'a') 500 (500 - 50) 0 ∧
      (∀ c ∈ cs, c.length ≤ 500) ∧
      (∀ i a b, cs[i]? = some a → cs[i + 1]? = some b → a.length = 500 →
        overlapExactly 50 a b) ∧
      (∃ c, cs.getLast? = some c ∧ c <:+ List.replicate 900 'a') ∧
      ((List.replicate 900 'a').length = 900 → 500 = 500 → 50 = 50 →
        cs = [(List.replicate 900 'a').take 500,
          (List.replicate 900 'a').drop 450]) :=
  chunking_window_structure (List.replicate 900 'a') 500 50
    (by
      intro h
      have h9 : (List.replicate 900 'a').length = 0 := by rw [h]; rfl
      rw [List.length_replicate] at h9
      omega)
    (by omega)

/-! C4 -/

/-- C4: round-trip.  For every text and `0 <= o < m`, chunking terminates
and concatenating the chunks with the first `o` characters removed from
every chunk after the first reconstructs the text exactly. -/
theorem chunking_round_trip (text : List Char) (m o : Nat) (ho : o < m) :
    ∃ cs,
      split_text_into_chunks text (m : Int) (o : Int) (text.length + 1) =
        some cs ∧
      rejoinOverlap o cs = text := by
  refine ⟨specWindows text m (m - o) 0, ?_, ?_⟩
  · by_cases hne : text = []
    · subst hne
      rw [specWindows_unfold, if_neg (by simp only [List.length_nil]; omega)]
      rfl
    · unfold split_text_into_chunks
      rw [if_neg (by simp [List.isEmpty_iff, hne])]
      have h := chunkLoopAux_eq_specWindows text m o ho (text.length + 1) 0 []
        (by omega)
      simpa using h
  · rw [specWindows_unfold]
    by_cases hc : 0 < m - o ∧ 0 < text.length
    · rw [if_pos hc]
      simp only [rejoinOverlap]
      rw [specWindows_drop_flatten text m o ho text.length (0 + (m - o))
        (by omega)]
      rw [List.drop_zero]
      rw [show 0 + (m - o) + o = m by omega]
      exact List.take_append_drop m text
    · rw [if_neg hc]
      simp only [rejoinOverlap]
      have hlen : text.length = 0 := by omega
      rw [List.length_eq_zero.mp hlen]

/-- Witness for C4 at `text = "abcde"`, `m = 3`, `o = 1`. -/
theorem chunking_round_trip_witness :
    ∃ cs,
      split_text_into_chunks ("abcde".toList) (3 : Int) (1 : Int)
        ("abcde".toList.length + 1) = some cs ∧
      rejoinOverlap 1 cs = "abcde".toList :=
  chunking_round_trip ("abcde".toList) 3 1 (by omega)

/-! C1 -/

/-- C1: the claim says a missing `GOOGLE_API_KEY` aborts the run before any
chunk is processed and before any generation file I/O, with no partial
output file.  In the code the key check lives inside the per-chunk
`generate_qa_from_text`, which logs `FATAL` but merely returns `[]`:
`main` creates/truncates the output file and iterates over every chunk
anyway, finishing "successfully" with an empty output file.  At the
concrete input below (nonempty source text of one chunk, no API key, any
behavior of the external model) the run completes with the output file
created, 1 chunk processed, and 0 records written. -/
theorem qa_main_missing_key_processes_all_chunks :
    ∀ api : List Char → List QAPair,
      qa_main none api (some ("hello, world".toList))
        ("output/dataset.jsonl".toList) = MainOutcome.completed 1 0 :=
  fun _ => rfl

/-- Witness for C1 with the external model modelled as returning nothing. -/
theorem qa_main_missing_key_processes_all_chunks_witness :
    qa_main none (fun _ => []) (some ("hello, world".toList))
      ("output/dataset.jsonl".toList) = MainOutcome.completed 1 0 :=
  qa_main_missing_key_processes_all_chunks (fun _ => [])

/-! Helper lemmas for the validator. -/

/-- An unparseable line increments only the invalid-JSON counter and leaves
the expected-keys state unchanged. -/
theorem processLine_badJSON (expected : Option (List (List Char)))
    (st : EvalStats) :
    processLine expected st .badJSON =
      some (expected, ⟨st.invalid_json_count + 1, st.missing_key_count,
        st.empty_value_count⟩) := rfl

/-- An object line whose key set matches the (captured) expected keys adds
its empty-field count to the empty-value counter. -/
theorem processLine_obj_match (expected : Option (List (List Char)))
    (st : EvalStats) (fields : List (List Char × JValue))
    (hk : keySetEq (objKeys fields) (expected.getD (objKeys fields)) = true) :
    processLine expected st (.parsed (.obj fields)) =
      some (some (expected.getD (objKeys fields)),
        ⟨st.invalid_json_count, st.missing_key_count,
          st.empty_value_count + emptyFieldCount fields⟩) := by
  simp only [processLine]
  rw [if_pos hk]

/-- An object line whose key set differs from the expected keys increments
only the key-mismatch counter; its values are not examined. -/
theorem processLine_obj_mismatch (expected : Option (List (List Char)))
    (st : EvalStats) (fields : List (List Char × JValue))
    (hk : keySetEq (objKeys fields) (expected.getD (objKeys fields)) = false) :
    processLine expected st (.parsed (.obj fields)) =
      some (some (expected.getD (objKeys fields)),
        ⟨st.invalid_json_count, st.missing_key_count + 1,
          st.empty_value_count⟩) := by
  simp only [processLine]
  rw [if_neg (by simp [hk])]

/-- Unfolding lemma for the validator loop. -/
theorem evalLines_cons (l : PLine) (ls : List PLine)
    (expected : Option (List (List Char))) (st : EvalStats) :
    evalLines (l :: ls) expected st =
      match processLine expected st l with
      | none => none
      | some (e2, st2) => evalLines ls e2 st2 := rfl

/-- Invariant of the validator loop on files whose parseable lines are all
objects: the loop never crashes, each unparseable line increments the
invalid-JSON counter and processing continues (so the counter ends at the
number of unparseable lines), and the final expected-keys state is the
incoming one if already captured, otherwise the key set of the first
successfully parsed line. -/
theorem evalLines_objOrBad :
    ∀ (lines : List PLine), (∀ l ∈ lines, lineIsObjOrBad l = true) →
      ∀ (expected : Option (List (List Char))) (st : EvalStats),
        ∃ e2 st2, evalLines lines expected st = some (e2, st2) ∧
          st2.invalid_json_count =
            st.invalid_json_count + lines.countP lineIsBad ∧
          e2 = (match expected with
            | some e => some e
            | none => firstParsedKeys lines) := by
  intro lines
  induction lines with
  | nil =>
    intro _ expected st
    refine ⟨expected, st, rfl, by simp, ?_⟩
    cases expected <;> rfl
  | cons l ls ih =>
    intro h2 expected st
    have hl := h2 l (List.mem_cons_self l ls)
    have hls : ∀ x ∈ ls, lineIsObjOrBad x = true :=
      fun x hx => h2 x (List.mem_cons_of_mem l hx)
    cases l with
    | badJSON =>
      rw [evalLines_cons, processLine_badJSON]
      obtain ⟨e2, st2, he, hc, hexp⟩ := ih hls expected
        ⟨st.invalid_json_count + 1, st.missing_key_count,
          st.empty_value_count⟩
      refine ⟨e2, st2, he, ?_, ?_⟩
      · rw [hc]
        rw [List.countP_cons_of_pos lineIsBad ls (by rfl)]
        dsimp only
        omega
      · rw [hexp]
        cases expected <;> rfl
    | parsed v =>
      cases v with
      | obj fields =>
        rw [evalLines_cons]
        by_cases hk : keySetEq (objKeys fields)
            (expected.getD (objKeys fields)) = true
        · rw [processLine_obj_match expected st fields hk]
          obtain ⟨e2, st2, he, hc, hexp⟩ := ih hls
            (some (expected.getD (objKeys fields)))
            ⟨st.invalid_json_count, st.missing_key_count,
              st.empty_value_count + emptyFieldCount fields⟩
          refine ⟨e2, st2, he, ?_, ?_⟩
          · rw [hc]
            rw [List.countP_cons_of_neg lineIsBad ls (by simp [lineIsBad])]
          · rw [hexp]
            cases expected <;> rfl
        · rw [processLine_obj_mismatch expected st fields
            (Bool.eq_false_iff.mpr hk)]
          obtain ⟨e2, st2, he, hc, hexp⟩ := ih hls
            (some (expected.getD (objKeys fields)))
            ⟨st.invalid_json_count, st.missing_key_count + 1,
              st.empty_value_count⟩
          refine ⟨e2, st2, he, ?_, ?_⟩
          · rw [hc]
            rw [List.countP_cons_of_neg lineIsBad ls (by simp [lineIsBad])]
          · rw [hexp]
            cases expected <;> rfl
      | null => simp [lineIsObjOrBad] at hl
      | bool b => simp [lineIsObjOrBad] at hl
      | num q => simp [lineIsObjOrBad] at hl
      | str s => simp [lineIsObjOrBad] at hl
      | arr elems => simp [lineIsObjOrBad] at hl

/-! C5 -/

/-- C5 counterexample: the claim says validation processes every line of
every nonempty dataset file without halting early.  A line that is valid
JSON but not an object (here the single line `5`) reaches
`set(data.keys())`, which raises `AttributeError` — the `except
json.JSONDecodeError` handler does not catch it, so validation crashes and
no report (and no pass/fail verdict) is produced. -/
theorem validator_nonobject_line_counterexample :
    evaluate_jsonl_dataset [PLine.parsed (JValue.num 5)] =
      EvalOutcome.crashed ∧
    ∀ e st p, evaluate_jsonl_dataset [PLine.parsed (JValue.num 5)] ≠
      EvalOutcome.report e st p := by
  refine ⟨rfl, ?_⟩
  intro e st p h
  rw [show evaluate_jsonl_dataset [PLine.parsed (JValue.num 5)] =
    EvalOutcome.crashed from rfl] at h
  exact EvalOutcome.noConfusion h

/-- C5 (amended): for every nonempty dataset file all of whose
JSON-parseable lines are objects, validation processes every line without
halting early: unparseable lines increment `invalid_json` and processing
continues (the final count is exactly the number of unparseable lines),
the expected keys are the key set of the first successfully parsed line,
and the dataset passes all quality checks iff `invalid_json == 0` and
`key_mismatch == 0` and `empty_value == 0`. -/
theorem validator_processes_every_line (lines : List PLine)
    (h1 : lines ≠ []) (h2 : ∀ l ∈ lines, lineIsObjOrBad l = true) :
    ∃ st : EvalStats,
      evaluate_jsonl_dataset lines =
        EvalOutcome.report (firstParsedKeys lines) st (datasetPassed st) ∧
      st.invalid_json_count = lines.countP lineIsBad ∧
      (datasetPassed st = true ↔
        st.invalid_json_count = 0 ∧ st.missing_key_count = 0 ∧
          st.empty_value_count = 0) := by
  obtain ⟨e2, st2, he, hc, hexp⟩ := evalLines_objOrBad lines h2 none ⟨0, 0, 0⟩
  have hexp2 : e2 = firstParsedKeys lines := hexp
  refine ⟨st2, ?_, by simpa using hc, ?_⟩
  · unfold evaluate_jsonl_dataset
    rw [if_neg (by simp [List.isEmpty_iff, h1])]
    rw [he]
    dsimp only
    rw [hexp2]
  · simp [datasetPassed, and_assoc]

/-- Witness for C5 (amended) on a two-line file: an object line followed by
an unparseable line. -/
theorem validator_processes_every_line_witness :
    ∃ st : EvalStats,
      evaluate_jsonl_dataset
        [PLine.parsed (JValue.obj [(['a'], JValue.str ['x'])]),
          PLine.badJSON] =
        EvalOutcome.report
          (firstParsedKeys
            [PLine.parsed (JValue.obj [(['a'], JValue.str ['x'])]),
              PLine.badJSON])
          st (datasetPassed st) ∧
      st.invalid_json_count =
        List.countP lineIsBad
          [PLine.parsed (JValue.obj [(['a'], JValue.str ['x'])]),
            PLine.badJSON] ∧
      (datasetPassed st = true ↔
        st.invalid_json_count = 0 ∧ st.missing_key_count = 0 ∧
          st.empty_value_count = 0) :=
  validator_processes_every_line
    [PLine.parsed (JValue.obj [(['a'], JValue.str ['x'])]), PLine.badJSON]
    (List.cons_ne_nil _ _)
    (by intro l hl; fin_cases hl <;> rfl)

/-! C6 -/

/-- C6: on a matching-keys line each falsy-but-not-zero field value (empty
string, empty mapping, null) adds one to `empty_value` — one increment per
offending field, so one line can contribute several; the numeric zero is
not counted; and a line whose key set differs increments `key_mismatch`
without its values being checked.  The two file-level examples from the
spec are included: `{"a":"x","b":""}` reports `empty_value=1` and fails,
`{"a":"x","b":0}` reports `empty_value=0` and passes. -/
theorem validator_empty_value_rules (exp : List (List Char))
    (st : EvalStats) (fields : List (List Char × JValue)) :
    (keySetEq (objKeys fields) exp = true →
      processLine (some exp) st (.parsed (.obj fields)) =
        some (some exp, ⟨st.invalid_json_count, st.missing_key_count,
          st.empty_value_count +
            fields.countP (fun kv => countsEmpty kv.2)⟩)) ∧
    (keySetEq (objKeys fields) exp = false →
      processLine (some exp) st (.parsed (.obj fields)) =
        some (some exp, ⟨st.invalid_json_count, st.missing_key_count + 1,
          st.empty_value_count⟩)) ∧
    countsEmpty (JValue.num 0) = false ∧
    countsEmpty (JValue.str []) = true ∧
    countsEmpty (JValue.obj []) = true ∧
    countsEmpty JValue.null = true ∧
    evaluate_jsonl_dataset
      [PLine.parsed (JValue.obj
        [(['a'], JValue.str ['x']), (['b'], JValue.str [])])] =
      EvalOutcome.report (some [['a'], ['b']]) ⟨0, 0, 1⟩ false ∧
    evaluate_jsonl_dataset
      [PLine.parsed (JValue.obj
        [(['a'], JValue.str ['x']), (['b'], JValue.num 0)])] =
      EvalOutcome.report (some [['a'], ['b']]) ⟨0, 0, 0⟩ true := by
  refine ⟨?_, ?_, by decide, rfl, rfl, rfl, by decide, by decide⟩
  · intro hk
    exact processLine_obj_match (some exp) st fields hk
  · intro hk
    exact processLine_obj_mismatch (some exp) st fields hk

/-- Witness for C6: a null value on a matching-keys line counts as one
empty value; a mismatched-keys line only bumps the mismatch counter. -/
theorem validator_empty_value_rules_witness :
    processLine (some [['a']]) ⟨0, 0, 0⟩
        (.parsed (.obj [(['a'], JValue.null)])) =
      some (some [['a']],
        ⟨0, 0, 0 + [(['a'], JValue.null)].countP
          (fun kv => countsEmpty kv.2)⟩) ∧
    processLine (some [['b']]) ⟨0, 0, 0⟩
        (.parsed (.obj [(['a'], JValue.null)])) =
      some (some [['b']], ⟨0, 0 + 1, 0⟩) :=
  ⟨(validator_empty_value_rules [['a']] ⟨0, 0, 0⟩
      [(['a'], JValue.null)]).1 (by decide),
    (validator_empty_value_rules [['b']] ⟨0, 0, 0⟩
      [(['a'], JValue.null)]).2.1 (by decide)⟩

/-! C9 -/

/-- C9: the empty-value exemption is the numeric comparison `value != 0`,
which the boolean `False` (an `int` subclass equal to `0`) and the float
`0.0` fail, so they are not counted as empty: a matching-keys line whose
values are all `false`, numeric zero, or non-falsy leaves the empty-value
counter (and every other counter) unchanged. -/
theorem validator_false_and_zero_not_empty (exp : List (List Char))
    (st : EvalStats) (fields : List (List Char × JValue))
    (hk : keySetEq (objKeys fields) exp = true)
    (hv : ∀ kv ∈ fields, kv.2 = JValue.bool false ∨ kv.2 = JValue.num 0 ∨
      pyFalsy kv.2 = false) :
    processLine (some exp) st (.parsed (.obj fields)) =
      some (some exp, st) ∧
    countsEmpty (JValue.bool false) = false ∧
    countsEmpty (JValue.num 0) = false ∧
    pyNeZero (JValue.bool false) = false ∧
    pyNeZero (JValue.num 0) = false := by
  refine ⟨?_, rfl, by decide, rfl, by decide⟩
  have hcount : emptyFieldCount fields = 0 := by
    unfold emptyFieldCount
    rw [List.countP_eq_zero]
    intro kv hm
    rcases hv kv hm with h | h | h
    · rw [h]; decide
    · rw [h]; decide
    · simp [countsEmpty, h]
  have hpl := processLine_obj_match (some exp) st fields hk
  rw [hpl, hcount]
  cases st with
  | mk a b c => simp

/-- Witness for C9 on a line with a `false` value, a zero value, and a
nonempty string value. -/
theorem validator_false_and_zero_not_empty_witness :
    processLine (some [['a'], ['b'], ['c']]) ⟨0, 0, 0⟩
        (.parsed (.obj [(['a'], JValue.bool false), (['b'], JValue.num 0),
          (['c'], JValue.str ['x'])])) =
      some (some [['a'], ['b'], ['c']], ⟨0, 0, 0⟩) ∧
    countsEmpty (JValue.bool false) = false ∧
    countsEmpty (JValue.num 0) = false ∧
    pyNeZero (JValue.bool false) = false ∧
    pyNeZero (JValue.num 0) = false :=
  validator_false_and_zero_not_empty [['a'], ['b'], ['c']] ⟨0, 0, 0⟩
    [(['a'], JValue.bool false), (['b'], JValue.num 0),
      (['c'], JValue.str ['x'])]
    (by decide)
    (by intro kv hm; fin_cases hm <;> simp [pyFalsy])

/-! C8 -/

/-- C8: the classification schema constrains the `classification` field by
an enumeration that is exactly the domain's configured label list, falling
back to the `"default"` labels for unknown domains; for domain `"legal"`
the enumeration is exactly the seven configured legal categories. -/
theorem classification_schema_enum_labels :
    (generate_classification_schema "legal").classification_enum =
      ["Governing Law", "Confidentiality", "Limitation of Liability",
        "Termination", "Indemnification", "Force Majeure",
        "Miscellaneous"] ∧
    (∀ domain : String, CLASSIFICATION_LABELS.lookup domain = none →
      (generate_classification_schema domain).classification_enum =
        ["General Information", "Key Highlight", "Action Item"]) ∧
    (∀ domain labels, CLASSIFICATION_LABELS.lookup domain = some labels →
      (generate_classification_schema domain).classification_enum =
        labels) := by
  refine ⟨rfl, ?_, ?_⟩
  · intro domain h
    unfold generate_classification_schema labelsForDomain
    rw [h]
    rfl
  · intro domain labels h
    unfold generate_classification_schema labelsForDomain
    rw [h]
    rfl

/-- Witness for C8: an unknown domain falls back to the default labels, and
a configured domain gets its own labels. -/
theorem classification_schema_enum_labels_witness :
    (generate_classification_schema "chemistry").classification_enum =
      ["General Information", "Key Highlight", "Action Item"] ∧
    (generate_classification_schema "finance").classification_enum =
      ["Revenue Growth", "Profit Margin Analysis", "Risk Assessment",
        "Forward-Looking Statement", "Shareholder Equity",
        "Debt and Liabilities"] :=
  ⟨classification_schema_enum_labels.2.1 "chemistry" (by decide),
    classification_schema_enum_labels.2.2 "finance"
      ["Revenue Growth", "Profit Margin Analysis", "Risk Assessment",
        "Forward-Looking Statement", "Shareholder Equity",
        "Debt and Liabilities"] (by decide)⟩

/-! C7 -/

/-- C7 counterexample: the claim says opening the dataset writer succeeds
for every output path, including a bare filename.  For a bare filename
`os.path.dirname` is `''`, and `os.makedirs('', exist_ok=True)` raises
`FileNotFoundError` before `open` is reached, so opening the writer fails
on a bare filename. -/
theorem writer_bare_filename_counterexample :
    open_dataset_writer ("out.jsonl".toList) = none := by decide

/-- C7 (amended): for every output path whose directory component is
nonempty, opening the dataset writer (creating missing parent directories)
succeeds.  The second conjunct shows a path with a directory component has
the expected nonempty dirname. -/
theorem writer_opens_when_dirname_nonempty (path : List Char)
    (h : os_path_dirname path ≠ []) :
    open_dataset_writer path = some () ∧
    os_path_dirname ("data/out.jsonl".toList) = "data".toList := by
  refine ⟨?_, by decide⟩
  unfold open_dataset_writer
  rw [if_neg (by simp [List.isEmpty_iff, h])]

/-- Witness for C7 (amended) at the path `"data/out.jsonl"`. -/
theorem writer_opens_when_dirname_nonempty_witness :
    open_dataset_writer ("data/out.jsonl".toList) = some () ∧
    os_path_dirname ("data/out.jsonl".toList) = "data".toList :=
  writer_opens_when_dirname_nonempty ("data/out.jsonl".toList) (by decide)

end LegalDatasets
